import Mathlib

/-!
Verification of the `Window` terminal framebuffer component
(src/termrender/window.py) against its natural-language specification.

The Python class-level state is embedded as an explicit `Window` record;
each classmethod becomes a function on that record.  Pixel values are
arbitrary Python integers, embedded as `Int`.  Fallible methods return
`Except String Window`.
-/

/-- Modelled from the spec: the `Mode` type lives in src/termrender/types.py,
which is not part of the provided sources.  The spec describes it as a set of
orthogonal, bitwise-combinable flags drawn from `bw`, `high_res`, `monochrome`,
`palette4`, `palette8` (full color when none of the indexed/monochrome flags
are set).  A bitmask of five independent flags is embedded as a record of five
Booleans; a Python test `mode & Mode.f` becomes the field `f`. -/
structure Mode where
  bw : Bool
  high_res : Bool
  monochrome : Bool
  palette4 : Bool
  palette8 : Bool
deriving DecidableEq, Repr

/-- The class-level state of `Window` in src/termrender/window.py:
mode, real terminal size, virtual size, display buffer and palette. -/
structure Window where
  mode : Mode
  terminal_width : Nat
  terminal_height : Nat
  width : Nat
  height : Nat
  disp_buffer : List Int
  palette : List String
deriving DecidableEq, Repr

/-- The classmethod `initialize` of `Window` (window.py lines 63-97), renamed here.  The palette tables
(`Palette.monochrome` / `palette4` / `palette8` from src/termrender/palette.py,
absent from the sources; the spec keeps their contents out of scope) are taken
as parameters `palMono`, `pal4`, `pal8`.  Raising `NotImplementedError` is
embedded as `Except.error`. -/
def Window.initializeWindow (mode : Mode) (tw th : Nat)
    (palMono pal4 pal8 : List String) : Except String Window :=
  if !mode.bw && mode.high_res then
    Except.error "Unable to have color with high_res flag enabled"
  else
    let w := if mode.high_res then tw * 2 else tw
    let h := if mode.high_res then th * 4 else th
    let pal :=
      if mode.monochrome then palMono
      else if mode.palette4 then pal4
      else if mode.palette8 then pal8
      else []
    Except.ok
      { mode := mode
        terminal_width := tw
        terminal_height := th
        width := w
        height := h
        disp_buffer := List.replicate (w * h) 0
        palette := pal }

/-- `Window.plot` (window.py lines 99-109): writes `val` at `x + y * width`
when `0 < x < width` and `0 < y < height`, otherwise does nothing. -/
def Window.plot (s : Window) (x y : Int) (val : Int) : Window :=
  if 0 < x ∧ x < (s.width : Int) ∧ 0 < y ∧ y < (s.height : Int) then
    { s with disp_buffer := s.disp_buffer.set (x + y * (s.width : Int)).toNat val }
  else
    s

/-- `Window.copy_buffer` (window.py lines 111-123): replaces the buffer by a
copy of `buf`, raising `IndexError` when the length is not `width * height`. -/
def Window.copy_buffer (s : Window) (buf : List Int) : Except String Window :=
  if buf.length ≠ s.width * s.height then
    Except.error "Incorrect buffer length"
  else
    Except.ok { s with disp_buffer := buf }

/-- `Window.clear` (window.py lines 125-132): remakes a zeroed buffer of the
current `width * height` size. -/
def Window.clear (s : Window) : Window :=
  { s with disp_buffer := List.replicate (s.width * s.height) 0 }

/-- The braille byte of one 2×4 tile (window.py lines 154-159): the raw buffer
values at the eight tile offsets, shifted into their bit positions and summed.
A Python shift `v << k` on an arbitrary integer is `v * 2^k`. -/
def brailleAt (buf : List Int) (width idx : Nat) : Int :=
  buf.getD idx 0 + buf.getD (idx + 1) 0 * 8 +
    buf.getD (idx + width) 0 * 2 + buf.getD (idx + 1 + width) 0 * 16 +
    buf.getD (idx + width * 2) 0 * 4 + buf.getD (idx + 1 + width * 2) 0 * 32 +
    buf.getD (idx + width * 3) 0 * 64 + buf.getD (idx + 1 + width * 3) 0 * 128

/-- The characters emitted by the `bw + high_res` branch of `Window.update`
(window.py lines 148-161): `for yo in range(0, height, 4)` visits
`⌈height/4⌉` rows, `for xo in range(0, width, 2)` visits `⌈width/2⌉` columns,
`idx = xo + yo * width`, and each tile appends `chr(braille + 0x2800)`. -/
def brailleChars (width height : Nat) (buf : List Int) : List Char :=
  (List.range ((height + 3) / 4)).flatMap fun ty =>
    (List.range ((width + 1) / 2)).map fun tx =>
      Char.ofNat (brailleAt buf width (2 * tx + 4 * ty * width) + 0x2800).toNat

/-- The indexed-color branch of `Window.update` (window.py lines 163-174):
each value is reduced modulo the palette length (Python `%` on integers is
`Int.emod`), 0 emits a space, a value different from the previously emitted
one emits the palette escape string plus a block and becomes the new
previous value, and a repeated value emits a bare block. -/
def renderIndexed (palette : List String) : List Int → Int → String
  | [], _ => ""
  | val :: rest, prev =>
    let v := val % (palette.length : Int)
    if v = 0 then " " ++ renderIndexed palette rest prev
    else if v ≠ prev then palette.getD v.toNat "" ++ "█" ++ renderIndexed palette rest v
    else "█" ++ renderIndexed palette rest prev

/-- The escape-plus-glyph string of the full-color branch (window.py lines
183-186): `red = val >> 16` (no mask), `green = (val >> 8) & 0xff`,
`blue = val & 0xff`.  Python `>> k` is floor division by `2^k` and `& 0xff`
is `% 256` with a non-negative result, which are the `/` and `%` of `Int`. -/
def rgbEscape (val : Int) : String :=
  "\x1b[38;2;" ++ toString (val / 65536) ++ ";" ++
    toString (val / 256 % 256) ++ ";" ++ toString (val % 256) ++ "m█"

/-- The full-color branch of `Window.update` (window.py lines 177-189). -/
def renderRGB : List Int → Int → String
  | [], _ => ""
  | val :: rest, prev =>
    if val = 0 then " " ++ renderRGB rest prev
    else if val ≠ prev then rgbEscape val ++ renderRGB rest val
    else "█" ++ renderRGB rest prev

/-- `Window.update` (window.py lines 134-190): builds the output string
starting from the cursor-home escape `\x1b[H`, dispatching on the mode with
`bw` checked first, then the indexed flags, else full color; the class state
is never assigned, so the state component of the result is the input state. -/
def Window.update (s : Window) : Window × String :=
  let body :=
    if s.mode.bw then
      if !s.mode.high_res then
        String.join (s.disp_buffer.map fun x => if x = 0 then " " else "█")
      else
        String.mk (brailleChars s.width s.height s.disp_buffer)
    else if s.mode.monochrome || s.mode.palette4 || s.mode.palette8 then
      renderIndexed s.palette s.disp_buffer (-1)
    else
      renderRGB s.disp_buffer (-1)
  (s, "\x1b[H" ++ body)

/-! ### Claim-side definitions

The following definitions transcribe the wording of the spec (not the code) for
the claims that compare the two; each is compared with the corresponding
code-derived definition above. -/

/-- The truthiness of a pixel value, as a bit: 0 for 0, 1 for nonzero. -/
def truthyBit (v : Int) : Int := if v = 0 then 0 else 1

/-- The braille packing of claim C1: the *truthiness* of each sub-pixel packed into its
fixed bit position — (0,0)→bit0, (1,0)→bit3, (0,1)→bit1, (1,1)→bit4,
(0,2)→bit2, (1,2)→bit5, (0,3)→bit6, (1,3)→bit7. -/
def brailleTruthyAt (buf : List Int) (width idx : Nat) : Int :=
  truthyBit (buf.getD idx 0) + truthyBit (buf.getD (idx + 1) 0) * 8 +
    truthyBit (buf.getD (idx + width) 0) * 2 +
    truthyBit (buf.getD (idx + 1 + width) 0) * 16 +
    truthyBit (buf.getD (idx + width * 2) 0) * 4 +
    truthyBit (buf.getD (idx + 1 + width * 2) 0) * 32 +
    truthyBit (buf.getD (idx + width * 3) 0) * 64 +
    truthyBit (buf.getD (idx + 1 + width * 3) 0) * 128

/-- The rendered body of claim C1: `(height/4) * (width/2)` tiles, stepping the
tile origin by 2 in x and 4 in y, one character `0x2800 + packed_byte`
per tile with the byte packed from truthiness. -/
def brailleTruthyChars (width height : Nat) (buf : List Int) : List Char :=
  (List.range (height / 4)).flatMap fun ty =>
    (List.range (width / 2)).map fun tx =>
      Char.ofNat (brailleTruthyAt buf width (2 * tx + 4 * ty * width) + 0x2800).toNat

/-- The escape-plus-glyph string of claim C2: `red = value>>16 & 0xFF`,
`green = value>>8 & 0xFF`, `blue = value & 0xFF`. -/
def rgbEscapeSpec (val : Int) : String :=
  "\x1b[38;2;" ++ toString (val / 65536 % 256) ++ ";" ++
    toString (val / 256 % 256) ++ ";" ++ toString (val % 256) ++ "m█"

/-- The full-color rendering as claim C2 words it: identical to the code
branch except that the red channel is masked to 8 bits. -/
def renderRGBSpec : List Int → Int → String
  | [], _ => ""
  | val :: rest, prev =>
    if val = 0 then " " ++ renderRGBSpec rest prev
    else if val ≠ prev then rgbEscapeSpec val ++ renderRGBSpec rest val
    else "█" ++ renderRGBSpec rest prev

/-- The error condition of claim C5 as literally worded: `high_res` requested
together with a color flag other than `bw`. -/
def highResWithColorFlag (m : Mode) : Bool :=
  m.high_res && (m.monochrome || m.palette4 || m.palette8)

/-- The description in claim C7 of the indexed-color body: a single left-to-right
pass accumulating the output and the previously emitted nonzero palette
index, the latter initialized to the sentinel -1. -/
def indexedBodySpec (palette : List String) (buf : List Int) : String :=
  (buf.foldl
    (fun acc val =>
      let v := val % (palette.length : Int)
      if v = 0 then (acc.1 ++ " ", acc.2)
      else if v = acc.2 then (acc.1 ++ "█", acc.2)
      else (acc.1 ++ (palette.getD v.toNat "" ++ "█"), v))
    ("", (-1 : Int))).1

/-! ### Concrete states used by witnesses and counterexamples -/

/-- The plain monochrome-block mode: only the `bw` flag. -/
def modeBW : Mode := ⟨true, false, false, false, false⟩

/-- The high-resolution braille mode: `bw` and `high_res`. -/
def modeBWHR : Mode := ⟨true, true, false, false, false⟩

/-- Full-color mode: no flag set. -/
def modeRGB : Mode := ⟨false, false, false, false, false⟩

/-- Indexed mode with the `monochrome` flag. -/
def modeIdx : Mode := ⟨false, false, true, false, false⟩

/-- A 3×2 `bw` window with a zeroed buffer. -/
def winBW : Window := ⟨modeBW, 3, 2, 3, 2, List.replicate 6 0, []⟩

/-! ### Invariant of an initialized window -/

/-- The buffer-length invariant: the display buffer holds exactly
`width * height` entries. -/
def Window.lenInv (s : Window) : Prop :=
  s.disp_buffer.length = s.width * s.height

/-! ### Claim theorems -/

/-- C4: `copy_buffer` fails with the length-mismatch error exactly when the
input length differs from `width * height`; on failure nothing is replaced
(the result carries no new state), and on the matching length the buffer is
replaced element-for-element by the input, all other fields untouched. -/
theorem copy_buffer_length_check (s : Window) (buf : List Int) :
    ((∃ e, Window.copy_buffer s buf = Except.error e) ↔
      buf.length ≠ s.width * s.height) ∧
    (buf.length = s.width * s.height →
      Window.copy_buffer s buf = Except.ok { s with disp_buffer := buf }) := by
  by_cases h : buf.length = s.width * s.height <;>
    simp [Window.copy_buffer, h]

/-- Witness for C4 at a concrete window: a 6-element input is installed
element-for-element on the 3×2 window, and a 1-element input is rejected. -/
theorem copy_buffer_length_check_witness :
    ([1, 2, 3, 4, 5, 6] : List Int).length = winBW.width * winBW.height ∧
    Window.copy_buffer winBW [1, 2, 3, 4, 5, 6] =
      Except.ok { winBW with disp_buffer := [1, 2, 3, 4, 5, 6] } ∧
    (∃ e, Window.copy_buffer winBW [7] = Except.error e) :=
  ⟨by decide,
   (copy_buffer_length_check winBW [1, 2, 3, 4, 5, 6]).2 (by decide),
   (copy_buffer_length_check winBW [7]).1.mpr (by decide)⟩

/-- C5 (amended): `initialize` raises the configuration error exactly when
`high_res` is requested and `bw` is not — regardless of which (if any)
explicit color flag accompanies it. -/
theorem initialize_error_iff (m : Mode) (tw th : Nat) (pA pB pC : List String) :
    (∃ e, Window.initializeWindow m tw th pA pB pC = Except.error e) ↔
      (m.high_res = true ∧ m.bw = false) := by
  constructor
  · rintro ⟨e, he⟩
    by_cases hc : (!m.bw && m.high_res) = true
    · simp only [Bool.and_eq_true, Bool.not_eq_true'] at hc
      exact ⟨hc.2, hc.1⟩
    · unfold Window.initializeWindow at he
      rw [if_neg hc] at he
      exact Except.noConfusion he
  · rintro ⟨hh, hb⟩
    refine ⟨"Unable to have color with high_res flag enabled", ?_⟩
    unfold Window.initializeWindow
    rw [if_pos (by rw [hh, hb]; rfl)]

/-- Counterexample for C5 as stated: the mode combining `bw`, `monochrome`
and `high_res` requests `high_res` together with a color flag other than
`bw` (namely `monochrome`), so the claim asserts a configuration error, yet
`initialize` succeeds on it. -/
theorem initialize_claim_cond_cex :
    highResWithColorFlag ⟨true, true, true, false, false⟩ = true ∧
    (Window.initializeWindow ⟨true, true, true, false, false⟩ 1 1 ["a"] ["b"] ["c"]).isOk
      = true := by
  decide

/-- C6: on every successful initialization the virtual size equals the
terminal size, doubled to 2×/4× under `high_res`, and the buffer is exactly
`width * height` zeros. -/
theorem initialize_ok_dims_buffer (m : Mode) (tw th : Nat)
    (pA pB pC : List String) (s : Window)
    (h : Window.initializeWindow m tw th pA pB pC = Except.ok s) :
    (m.high_res = false → s.width = tw ∧ s.height = th) ∧
    (m.high_res = true → s.width = tw * 2 ∧ s.height = th * 4) ∧
    s.disp_buffer.length = s.width * s.height ∧
    ∀ v ∈ s.disp_buffer, v = 0 := by
  unfold Window.initializeWindow at h
  by_cases hc : (!m.bw && m.high_res) = true
  · rw [if_pos hc] at h
    exact Except.noConfusion h
  · rw [if_neg hc] at h
    injection h with h
    subst h
    refine ⟨fun hh => ⟨by simp [hh], by simp [hh]⟩,
            fun hh => ⟨by simp [hh], by simp [hh]⟩,
            by simp, fun v hv => List.eq_of_mem_replicate hv⟩

/-- Witness for C6: initializing the `bw` mode on a 3×2 terminal yields the
3×2 window with six zero pixels. -/
theorem initialize_ok_dims_buffer_witness :
    modeBW.high_res = false ∧ winBW.width = 3 ∧ winBW.height = 2 ∧
    winBW.disp_buffer.length = winBW.width * winBW.height ∧
    ∀ v ∈ winBW.disp_buffer, v = 0 :=
  have h := initialize_ok_dims_buffer modeBW 3 2 [] [] [] winBW rfl
  ⟨rfl, (h.1 rfl).1, (h.1 rfl).2, h.2.2.1, h.2.2.2⟩

/-- C10: `update` never changes the framebuffer state — mode, terminal size,
virtual size, buffer and palette are the same before and after; rendering is
read-only. -/
theorem update_preserves_state (s : Window) :
    (Window.update s).1.mode = s.mode ∧
    (Window.update s).1.terminal_width = s.terminal_width ∧
    (Window.update s).1.terminal_height = s.terminal_height ∧
    (Window.update s).1.width = s.width ∧
    (Window.update s).1.height = s.height ∧
    (Window.update s).1.disp_buffer = s.disp_buffer ∧
    (Window.update s).1.palette = s.palette :=
  ⟨rfl, rfl, rfl, rfl, rfl, rfl, rfl⟩

/-- C3: on an initialized window, an in-range `plot` (both coordinates at
least 1 and strictly below the dimension) writes exactly the buffer element
at `x + y * width` and nothing else, while `x = 0`, `y = 0` or any
out-of-range coordinate leaves the window completely unchanged. -/
theorem plot_set_and_bounds (s : Window)
    (hlen : s.disp_buffer.length = s.width * s.height) (x y v : Int) :
    (1 ≤ x → x < (s.width : Int) → 1 ≤ y → y < (s.height : Int) →
      (Window.plot s x y v).disp_buffer[(x + y * (s.width : Int)).toNat]?
          = some v ∧
      ∀ j : Nat, j ≠ (x + y * (s.width : Int)).toNat →
        (Window.plot s x y v).disp_buffer[j]? = s.disp_buffer[j]?) ∧
    ((x < 1 ∨ (s.width : Int) ≤ x ∨ y < 1 ∨ (s.height : Int) ≤ y) →
      Window.plot s x y v = s) := by
  constructor
  · intro hx1 hx2 hy1 hy2
    have hcond : 0 < x ∧ x < (s.width : Int) ∧ 0 < y ∧ y < (s.height : Int) := by
      omega
    obtain ⟨a, rfl⟩ : ∃ a : Nat, x = (a : Int) := ⟨x.toNat, by omega⟩
    obtain ⟨b, rfl⟩ : ∃ b : Nat, y = (b : Int) := ⟨y.toNat, by omega⟩
    have ha : a < s.width := by exact_mod_cast hx2
    have hb : b < s.height := by exact_mod_cast hy2
    have hnat : ((a : Int) + (b : Int) * (s.width : Int)).toNat
        = a + b * s.width := by
      omega
    have hidx : a + b * s.width < s.disp_buffer.length := by
      rw [hlen]
      calc a + b * s.width < s.width + b * s.width := by omega
        _ = (b + 1) * s.width := by ring
        _ ≤ s.height * s.width := Nat.mul_le_mul_right _ (by omega)
        _ = s.width * s.height := Nat.mul_comm _ _
    unfold Window.plot
    rw [if_pos hcond, hnat]
    exact ⟨List.getElem?_set_self hidx, fun j hj => List.getElem?_set_ne hj.symm⟩
  · intro hout
    unfold Window.plot
    rw [if_neg]
    rintro ⟨h1, h2, h3, h4⟩
    omega

/-- Witness for C3 on the 3×2 window: plotting at (1,1) writes value 9 to
index 4 and leaves index 0 alone; plotting at column 0 changes nothing. -/
theorem plot_set_and_bounds_witness :
    (Window.plot winBW 1 1 9).disp_buffer[(4 : Nat)]? = some 9 ∧
    (Window.plot winBW 1 1 9).disp_buffer[(0 : Nat)]? =
      winBW.disp_buffer[(0 : Nat)]? ∧
    Window.plot winBW 0 1 9 = winBW :=
  have h₁ := (plot_set_and_bounds winBW (by decide) 1 1 9).1
    (by decide) (by decide) (by decide) (by decide)
  have h₂ := (plot_set_and_bounds winBW (by decide) 0 1 9).2
    (by decide)
  ⟨h₁.1, h₁.2 0 (by decide), h₂⟩

/-- C9: every operation preserves the buffer-length invariant of an
initialized window: `plot` keeps the length and the dimensions, `clear`
rebuilds a buffer of the invariant length, and `copy_buffer` either fails or
installs a buffer of exactly `width * height` elements. -/
theorem ops_preserve_length_inv (s : Window) (hinv : Window.lenInv s)
    (x y v : Int) (buf : List Int) :
    Window.lenInv (Window.plot s x y v) ∧
    (Window.plot s x y v).width = s.width ∧
    (Window.plot s x y v).height = s.height ∧
    Window.lenInv (Window.clear s) ∧
    (∀ s', Window.copy_buffer s buf = Except.ok s' → Window.lenInv s') := by
  refine ⟨?_, ?_, ?_, ?_, ?_⟩
  · unfold Window.lenInv Window.plot
    split <;> simpa using hinv
  · unfold Window.plot
    split <;> rfl
  · unfold Window.plot
    split <;> rfl
  · unfold Window.lenInv Window.clear
    simp
  · intro s' h
    unfold Window.copy_buffer at h
    by_cases hl : buf.length ≠ s.width * s.height
    · rw [if_pos hl] at h
      exact Except.noConfusion h
    · rw [if_neg hl] at h
      injection h with h
      subst h
      unfold Window.lenInv
      simpa using not_not.mp (fun hne => hl hne)

/-- Witness for C9 on the 3×2 window: the invariant survives a plot, a
clear, and a successful buffer copy. -/
theorem ops_preserve_length_inv_witness :
    Window.lenInv (Window.plot winBW 2 1 5) ∧
    Window.lenInv (Window.clear winBW) ∧
    (∀ s', Window.copy_buffer winBW [9, 9, 9, 9, 9, 9] = Except.ok s' →
      Window.lenInv s') :=
  have h := ops_preserve_length_inv winBW rfl 2 1 5 [9, 9, 9, 9, 9, 9]
  ⟨h.1, h.2.2.2.1, h.2.2.2.2⟩

/-! ### Helper lemmas about string assembly -/

/-- Flattening a list of singleton lists is mapping. -/
theorem flatten_map_singleton {α β : Type} (f : α → β) (l : List α) :
    (l.map fun a => [f a]).flatten = l.map f := by
  induction l with
  | nil => rfl
  | cons a rest ih => simp [ih]

/-- C8: in `bw` mode without `high_res`, the rendered frame is the cursor-home
escape followed by exactly one character per pixel in buffer order — a space
for 0 and the solid block for anything else — and contains no newline (in
particular no trailing one). -/
theorem update_bw_body (s : Window) (hbw : s.mode.bw = true)
    (hhr : s.mode.high_res = false) :
    (Window.update s).2 =
      "\x1b[H" ++ String.mk (s.disp_buffer.map fun v => if v = 0 then ' ' else '█') ∧
    ∀ c ∈ (Window.update s).2.data, c ≠ '\n' := by
  have hbody : (Window.update s).2 =
      "\x1b[H" ++
        String.mk (s.disp_buffer.map fun v => if v = 0 then ' ' else '█') := by
    simp only [Window.update, hbw, hhr, Bool.not_false, if_true, ite_true]
    congr 1
    rw [String.join_eq, List.map_map]
    have hfun : (String.data ∘ fun x : Int => if x = 0 then " " else "█")
        = fun x : Int => [if x = 0 then ' ' else '█'] := by
      funext x
      by_cases hx : x = 0 <;> simp [hx]
    rw [hfun, flatten_map_singleton]
  refine ⟨hbody, ?_⟩
  intro c hc
  rw [hbody, String.data_append] at hc
  rcases List.mem_append.mp hc with h | h
  · have hdata : ("\x1b[H" : String).data = ['\x1b', '[', 'H'] := rfl
    rw [hdata] at h
    have h3 : c = '\x1b' ∨ c = '[' ∨ c = 'H' := by simpa using h
    rcases h3 with rfl | rfl | rfl <;> decide
  · rcases List.mem_map.mp h with ⟨v, _, rfl⟩
    by_cases hv : v = 0 <;> simp [hv]

/-- A 2×1 `bw` window with one lit pixel. -/
def winBW2 : Window := ⟨modeBW, 2, 1, 2, 1, [1, 0], []⟩

/-- Witness for C8: the 2×1 window with buffer `[1, 0]` renders to the
cursor-home escape, a block and a space, with no newline anywhere. -/
theorem update_bw_body_witness :
    (Window.update winBW2).2 =
      "\x1b[H" ++ String.mk (winBW2.disp_buffer.map fun v => if v = 0 then ' ' else '█') ∧
    ∀ c ∈ (Window.update winBW2).2.data, c ≠ '\n' :=
  update_bw_body winBW2 rfl rfl

/-- Unrolling the fold of `indexedBodySpec` against the recursion of the code:
the fold carried from any accumulator and previous index prepends the
accumulator to what the code emits. -/
theorem indexedBodySpec_fold (palette : List String) (buf : List Int) :
    ∀ (acc : String) (prev : Int),
      (buf.foldl
        (fun acc val =>
          let v := val % (palette.length : Int)
          if v = 0 then (acc.1 ++ " ", acc.2)
          else if v = acc.2 then (acc.1 ++ "█", acc.2)
          else (acc.1 ++ (palette.getD v.toNat "" ++ "█"), v))
        (acc, prev)).1 = acc ++ renderIndexed palette buf prev := by
  induction buf with
  | nil =>
    intro acc prev
    simp [renderIndexed]
  | cons val rest ih =>
    intro acc prev
    simp only [List.foldl_cons, renderIndexed]
    by_cases h0 : val % (palette.length : Int) = 0
    · rw [if_pos h0, if_pos h0, ih, String.append_assoc]
    · by_cases hp : val % (palette.length : Int) = prev
      · rw [if_neg h0, if_neg h0, if_pos hp, if_neg (not_not_intro hp), ih,
          String.append_assoc]
      · rw [if_neg h0, if_neg h0, if_neg hp, if_pos hp, ih,
          String.append_assoc]

/-- C7: in the indexed modes the rendered frame is the cursor-home escape
followed by the body described by the spec: every value reduced modulo the
palette length, zero emitting a space, a changed index emitting its palette
escape plus a block and becoming the remembered index (initialized to the
sentinel -1 for the whole frame), and a repeated index emitting a bare
block.  On the concrete buffer `[2, 2, 0, 3]` with any 4-entry palette this
yields escape 2 with a block, a bare block, a space, and escape 3 with a
block. -/
theorem update_indexed_spec (s : Window) (hbw : s.mode.bw = false)
    (hidx : (s.mode.monochrome || s.mode.palette4 || s.mode.palette8) = true)
    (_hpal : s.palette ≠ []) :
    (Window.update s).2 = "\x1b[H" ++ indexedBodySpec s.palette s.disp_buffer ∧
    ∀ p : List String, p.length = 4 →
      renderIndexed p [2, 2, 0, 3] (-1) =
        p.getD 2 "" ++ "█" ++ "█" ++ " " ++ (p.getD 3 "" ++ "█") := by
  constructor
  · simp only [Window.update, hbw, hidx, Bool.false_eq_true, ite_false,
      ite_true]
    congr 1
    rw [indexedBodySpec, indexedBodySpec_fold, String.empty_append]
  · intro p hp
    have h2 : ((2 : Int) % (p.length : Int)) = 2 := by rw [hp]; decide
    have h0 : ((0 : Int) % (p.length : Int)) = 0 := by rw [hp]; decide
    have h3 : ((3 : Int) % (p.length : Int)) = 3 := by rw [hp]; decide
    simp only [renderIndexed, h2, h0, h3]
    norm_num [String.append_assoc]
    rw [show ((2 : Int)).toNat = 2 from rfl, show ((3 : Int)).toNat = 3 from rfl]

/-- A 4×1 window in `monochrome` indexed mode with buffer `[2, 2, 0, 3]` and
a 4-entry palette. -/
def winIdx : Window := ⟨modeIdx, 4, 1, 4, 1, [2, 2, 0, 3], ["p0", "p1", "p2", "p3"]⟩

/-- Witness for C7 at the concrete indexed window, exercising the run-length
elision on buffer `[2, 2, 0, 3]`. -/
theorem update_indexed_spec_witness :
    (Window.update winIdx).2 =
      "\x1b[H" ++ indexedBodySpec winIdx.palette winIdx.disp_buffer ∧
    ∀ p : List String, p.length = 4 →
      renderIndexed p [2, 2, 0, 3] (-1) =
        p.getD 2 "" ++ "█" ++ "█" ++ " " ++ (p.getD 3 "" ++ "█") :=
  update_indexed_spec winIdx rfl rfl (by decide)

/-- For a 24-bit value the unmasked red channel of the code already lies in
one byte, so masking it as the claim words it changes nothing. -/
theorem rgbEscape_eq_spec_of_lt (val : Int) (h0 : 0 ≤ val)
    (h24 : val < 16777216) : rgbEscape val = rgbEscapeSpec val := by
  unfold rgbEscape rgbEscapeSpec
  have hred : val / 65536 % 256 = val / 65536 := by
    apply Int.emod_eq_of_lt
    · exact Int.ediv_nonneg h0 (by norm_num)
    · rw [Int.ediv_lt_iff_lt_mul (by norm_num)]
      omega
  rw [hred]

/-- The full-color branch agrees with the masked rendering of claim C2 on
every buffer of 24-bit values, whatever the carried previous value. -/
theorem renderRGB_eq_spec (buf : List Int)
    (hvals : ∀ v ∈ buf, 0 ≤ v ∧ v < 16777216) :
    ∀ prev : Int, renderRGB buf prev = renderRGBSpec buf prev := by
  induction buf with
  | nil => intro prev; rfl
  | cons val rest ih =>
    intro prev
    have hval := hvals val (List.mem_cons_self val rest)
    have hrest : ∀ v ∈ rest, 0 ≤ v ∧ v < 16777216 :=
      fun v hv => hvals v (List.mem_cons_of_mem val hv)
    by_cases h0 : val = 0
    · simp only [renderRGB, renderRGBSpec, h0, ite_true, ih hrest]
    · by_cases hp : val = prev
      · simp only [renderRGB, renderRGBSpec, if_neg h0, hp, ne_eq,
          not_true_eq_false, ite_false, ih hrest]
      · simp only [renderRGB, renderRGBSpec, if_neg h0, if_pos hp,
          ih hrest, rgbEscape_eq_spec_of_lt val hval.1 hval.2]

/-- C2 (amended): in full-color mode the code computes `red = value >> 16`
without masking; on buffers of 24-bit values (where the mask is the
identity) the frame equals the body worded by the claim, with 0 mapping to
a space and each emitted escape carrying `red = value>>16 & 0xFF`,
`green = value>>8 & 0xFF`, `blue = value & 0xFF`; the pixel value 0xFF0000
decodes to the escape with red=255, green=0, blue=0. -/
theorem update_rgb_decode (s : Window) (hbw : s.mode.bw = false)
    (hmono : s.mode.monochrome = false) (hp4 : s.mode.palette4 = false)
    (hp8 : s.mode.palette8 = false)
    (hvals : ∀ v ∈ s.disp_buffer, 0 ≤ v ∧ v < 16777216) :
    (Window.update s).2 = "\x1b[H" ++ renderRGBSpec s.disp_buffer (-1) ∧
    rgbEscape 0xFF0000 = "\x1b[38;2;255;0;0m█" := by
  constructor
  · simp only [Window.update, hbw, hmono, hp4, hp8, Bool.or_false,
      Bool.false_eq_true, ite_false]
    rw [renderRGB_eq_spec s.disp_buffer hvals]
  · decide

/-- A 1×1 full-color window holding the pure-red pixel 0xFF0000. -/
def winRGB : Window := ⟨modeRGB, 1, 1, 1, 1, [0xFF0000], []⟩

/-- Witness for C2 on the pure-red 1×1 window. -/
theorem update_rgb_decode_witness :
    (Window.update winRGB).2 = "\x1b[H" ++ renderRGBSpec winRGB.disp_buffer (-1) ∧
    rgbEscape 0xFF0000 = "\x1b[38;2;255;0;0m█" :=
  update_rgb_decode winRGB rfl rfl rfl rfl (by decide)

/-- A 1×1 full-color window holding the 25-bit pixel value 0x1000000. -/
def winRGBCex : Window := ⟨modeRGB, 1, 1, 1, 1, [16777216], []⟩

/-- Counterexample for C2 as stated: on the pixel value 0x1000000 the code
emits red = 256 (`value >> 16` unmasked) while the claim prescribes
`value>>16 & 0xFF = 0`, so the frame differs from the claim body. -/
theorem update_rgb_mask_cex :
    (Window.update winRGBCex).2 ≠
      "\x1b[H" ++ renderRGBSpec winRGBCex.disp_buffer (-1) := by
  decide

/-- Reading any position (with default 0) of a 0/1 buffer yields 0 or 1. -/
theorem getD_zero_one {buf : List Int} (h : ∀ v ∈ buf, v = 0 ∨ v = 1)
    (i : Nat) : buf.getD i 0 = 0 ∨ buf.getD i 0 = 1 := by
  rw [List.getD_eq_getElem?_getD]
  cases hg : buf[i]? with
  | none => left; rfl
  | some v => simpa using h v (List.getElem?_mem hg)

/-- On a 0/1 value the truthiness bit is the value itself. -/
theorem truthyBit_id {v : Int} (h : v = 0 ∨ v = 1) : truthyBit v = v := by
  rcases h with rfl | rfl <;> simp [truthyBit]

/-- On a 0/1 buffer the packed byte of the code (raw values shifted) equals
the packed byte of the claim (truthiness shifted). -/
theorem brailleTruthyAt_eq {buf : List Int}
    (h : ∀ v ∈ buf, v = 0 ∨ v = 1) (width idx : Nat) :
    brailleTruthyAt buf width idx = brailleAt buf width idx := by
  unfold brailleTruthyAt brailleAt
  rw [truthyBit_id (getD_zero_one h idx),
    truthyBit_id (getD_zero_one h (idx + 1)),
    truthyBit_id (getD_zero_one h (idx + width)),
    truthyBit_id (getD_zero_one h (idx + 1 + width)),
    truthyBit_id (getD_zero_one h (idx + width * 2)),
    truthyBit_id (getD_zero_one h (idx + 1 + width * 2)),
    truthyBit_id (getD_zero_one h (idx + width * 3)),
    truthyBit_id (getD_zero_one h (idx + 1 + width * 3))]

/-- On a 0/1 buffer with dimensions divisible by the tile size, the tile
characters of the code coincide with the truthiness-packed tile characters
of the claim. -/
theorem brailleChars_eq_truthy {buf : List Int}
    (h : ∀ v ∈ buf, v = 0 ∨ v = 1) {w hgt : Nat} (hw : 2 ∣ w)
    (hh : 4 ∣ hgt) : brailleChars w hgt buf = brailleTruthyChars w hgt buf := by
  obtain ⟨m, rfl⟩ := hw
  obtain ⟨k, rfl⟩ := hh
  unfold brailleChars brailleTruthyChars
  rw [show (2 * m + 1) / 2 = 2 * m / 2 by omega,
    show (4 * k + 3) / 4 = 4 * k / 4 by omega]
  congr 1
  funext ty
  congr 1
  funext tx
  rw [brailleTruthyAt_eq h]

/-- The claim body has one character per 2×4 tile:
`(height/4) * (width/2)` in total. -/
theorem brailleTruthyChars_length (w hgt : Nat) (buf : List Int) :
    (brailleTruthyChars w hgt buf).length = hgt / 4 * (w / 2) := by
  unfold brailleTruthyChars
  rw [List.length_flatMap]
  simp [Function.comp_def, List.map_const', List.sum_replicate, smul_eq_mul]

/-- A 2×4 `bw + high_res` window (terminal 1×1) whose buffer is `buf`. -/
def winHR (buf : List Int) : Window := ⟨modeBWHR, 1, 1, 2, 4, buf, []⟩

/-- C1 (amended): in `bw + high_res` mode, on buffers whose entries are all
0 or 1 (so that the truthiness of a sub-pixel is the value the code shifts),
`update` renders the cursor-home escape followed by one braille character
per 2×4 tile — tile origins stepping by 2 in x and 4 in y, the eight
sub-pixel truthiness bits packed as (0,0)→bit0, (1,0)→bit3, (0,1)→bit1,
(1,1)→bit4, (0,2)→bit2, (1,2)→bit5, (0,3)→bit6, (1,3)→bit7, the character
being `0x2800 + packed_byte` — so the body has exactly
`(height/4) * (width/2)` characters; an all-zero tile yields 0x2800, a tile
with only (0,0) set yields 0x2801, and a tile with only (1,3) set yields
0x2880. -/
theorem update_braille_packs (s : Window) (hbw : s.mode.bw = true)
    (hhr : s.mode.high_res = true)
    (hvals : ∀ v ∈ s.disp_buffer, v = 0 ∨ v = 1)
    (hw : 2 ∣ s.width) (hh : 4 ∣ s.height) :
    ((Window.update s).2 =
      "\x1b[H" ++ String.mk (brailleTruthyChars s.width s.height s.disp_buffer) ∧
    (Window.update s).2.length = 3 + s.height / 4 * (s.width / 2)) ∧
    ((Window.update (winHR [0, 0, 0, 0, 0, 0, 0, 0])).2
        = String.mk ['\x1b', '[', 'H', Char.ofNat 0x2800] ∧
     (Window.update (winHR [1, 0, 0, 0, 0, 0, 0, 0])).2
        = String.mk ['\x1b', '[', 'H', Char.ofNat 0x2801] ∧
     (Window.update (winHR [0, 0, 0, 0, 0, 0, 0, 1])).2
        = String.mk ['\x1b', '[', 'H', Char.ofNat 0x2880]) := by
  have hbody : (Window.update s).2 =
      "\x1b[H" ++ String.mk (brailleTruthyChars s.width s.height s.disp_buffer) := by
    simp only [Window.update, hbw, hhr, Bool.not_true, ite_true, ite_false,
      Bool.false_eq_true]
    rw [brailleChars_eq_truthy hvals hw hh]
  refine ⟨⟨hbody, ?_⟩, by decide, by decide, by decide⟩
  rw [hbody, String.length_append,
    show ("\x1b[H" : String).length = 3 from rfl,
    show (String.mk (brailleTruthyChars s.width s.height s.disp_buffer)).length
      = (brailleTruthyChars s.width s.height s.disp_buffer).length from rfl,
    brailleTruthyChars_length]

/-- Witness for C1 on the 2×4 window with only the (1,3) sub-pixel set. -/
theorem update_braille_packs_witness :
    ((Window.update (winHR [0, 0, 0, 0, 0, 0, 0, 1])).2 =
      "\x1b[H" ++ String.mk (brailleTruthyChars 2 4 [0, 0, 0, 0, 0, 0, 0, 1]) ∧
    (Window.update (winHR [0, 0, 0, 0, 0, 0, 0, 1])).2.length = 3 + 4 / 4 * (2 / 2)) ∧
    ((Window.update (winHR [0, 0, 0, 0, 0, 0, 0, 0])).2
        = String.mk ['\x1b', '[', 'H', Char.ofNat 0x2800] ∧
     (Window.update (winHR [1, 0, 0, 0, 0, 0, 0, 0])).2
        = String.mk ['\x1b', '[', 'H', Char.ofNat 0x2801] ∧
     (Window.update (winHR [0, 0, 0, 0, 0, 0, 0, 1])).2
        = String.mk ['\x1b', '[', 'H', Char.ofNat 0x2880]) :=
  update_braille_packs (winHR [0, 0, 0, 0, 0, 0, 0, 1]) rfl rfl
    (by decide) (by decide) (by decide)

/-- Counterexample for C1 as stated: on the 2×4 window whose (0,0) sub-pixel
holds the value 2, the code shifts the raw value (producing 0x2802) while
the claim packs its truthiness (predicting 0x2801), so the frame differs
from the claim body. -/
theorem update_braille_truthy_cex :
    (Window.update (winHR [2, 0, 0, 0, 0, 0, 0, 0])).2 ≠
      "\x1b[H" ++ String.mk (brailleTruthyChars 2 4 [2, 0, 0, 0, 0, 0, 0, 0]) := by
  decide
